import Mathlib

/-!
# LegitiCoinDB server (`main.go`)

A shallow embedding of the Go program `LegitiCoinDB-server-go/main.go`: the two HTTP
handlers `root` and `top10`, and the start-up sequence `main`.

The program is a thin layer over three libraries, so the embedding fixes a model of the part
of each library that the program calls:

* `net/http`: a `ResponseWriter` (header map, status line, body), `http.Error`, and the
  dispatch of `DefaultServeMux` for the two registered patterns;
* `encoding/json`: `Encoder.Encode` for the Go types the program encodes;
* the MongoDB driver: `Collection.Find` with a sort document and a limit, and `Cursor.All`
  decoding into `[]Player`.

What the model fixes and leaves out:

* A handler is described by what it hands to its `ResponseWriter`; what a client receives is a
  `Response`, in which the server has dropped the body when the method is `HEAD`. Headers the
  server adds itself (`Date`, `Content-Length`) are not part of either.
* The program does not control the MongoDB server: a collection carries the server that
  answers its find command, and what the server is expected to do is a hypothesis of the
  statements that need it (`Answers`), never a part of `top10`. The server `mongod` executes
  the find command as documented and is used in the concrete scenarios.
* BSON values are null, integers and strings; a document is its list of elements.
* The path of a request is its escaped path, the one `ServeMux` routes on.
* Deadlines are not timed: a query that runs out of time is a query that fails.

Go `error` values are represented by their message (`String`).  Go `int` is the 64-bit integer
type; the program performs no arithmetic on it, so it is represented by `Int`.
-/

namespace LegitiCoinDB

/-! ## net/http: the response writer -/

/-- The header map of a response, kept as an association list with one entry per key. -/
abbrev Header := List (String × String)

/-- Go `Header.Del`. -/
def Header.del (h : Header) (key : String) : Header :=
  h.filter (fun kv => kv.1 != key)

/-- Go `Header.Set`: replaces the values of `key` by the single value `value`. -/
def Header.set (h : Header) (key value : String) : Header :=
  Header.del h key ++ [(key, value)]

/-- Go `Header.Get`. -/
def Header.get (h : Header) (key : String) : Option String :=
  (h.find? (fun kv => kv.1 == key)).map Prod.snd

/-- The state of an `http.ResponseWriter` as a handler sees it: the header map it may still
edit, the status line and headers already committed (`none` until `WriteHeader` or the first
`Write`), and the body bytes written so far. -/
structure ResponseWriter where
  header : Header := []
  committed : Option (Nat × Header) := none
  body : String := ""
deriving DecidableEq, Repr

/-- Go `ResponseWriter.WriteHeader`: commits the status code and the current header map; a
second call is ignored. -/
def ResponseWriter.WriteHeader (w : ResponseWriter) (code : Nat) : ResponseWriter :=
  match w.committed with
  | some _ => w
  | none => { w with committed := some (code, w.header) }

/-- Go `ResponseWriter.Write`: an uncommitted response is committed with status 200 first. -/
def ResponseWriter.Write (w : ResponseWriter) (data : String) : ResponseWriter :=
  let w1 := w.WriteHeader 200
  { w1 with body := w1.body ++ data }

/-- Go `w.Header().Set(key, value)`. -/
def ResponseWriter.setHeader (w : ResponseWriter) (key value : String) : ResponseWriter :=
  { w with header := Header.set w.header key value }

/-- The status code sent to the client (200 when the handler never wrote anything). -/
def ResponseWriter.status (w : ResponseWriter) : Nat :=
  match w.committed with
  | some (code, _) => code
  | none => 200

/-- The headers sent to the client. -/
def ResponseWriter.sentHeader (w : ResponseWriter) : Header :=
  match w.committed with
  | some (_, h) => h
  | none => w.header

/-- Go `http.StatusInternalServerError`. -/
def StatusInternalServerError : Nat := 500

/-- Go `http.Error`: drops `Content-Length`, resets the content type to plain text, commits
the status code and prints the message with `fmt.Fprintln`, that is, followed by a line feed. -/
def httpError (w : ResponseWriter) (error : String) (code : Nat) : ResponseWriter :=
  let w1 := { w with header := Header.del w.header "Content-Length" }
  let w2 := w1.setHeader "Content-Type" "text/plain; charset=utf-8"
  let w3 := w2.setHeader "X-Content-Type-Options" "nosniff"
  let w4 := w3.WriteHeader code
  w4.Write (error ++ "\n")

/-- What remains of an `*http.Request` for this program; `path` is the escaped path of the
request URL (`r.URL.EscapedPath()`), `rawQuery` the query without the question mark. -/
structure Request where
  method : String
  path : String
  rawQuery : String := ""
  headers : Header := []
  body : String := ""
deriving DecidableEq, Repr

/-- How a call left the control flow: it returned to its caller, or it ended the process
(`log.Fatal` calls `os.Exit(1)`). -/
inductive Control where
  | returned
  | exited (code : Nat)
deriving DecidableEq, Repr

/-- The observable effect of running a handler: the response, the lines handed to `log`, and
how control left the handler. -/
structure Effect where
  w : ResponseWriter
  log : List String
  control : Control
deriving DecidableEq, Repr

/-! ## encoding/json -/

/-- Lower-case hexadecimal digit. -/
def hexDigit (n : Nat) : Char :=
  if n < 10 then Char.ofNat (48 + n) else Char.ofNat (87 + n)

/-- The escape `\u00XX` of a one-byte character. -/
def jsonUnicodeEscape (c : Char) : List Char :=
  [Char.ofNat 92, 'u', '0', '0', hexDigit (c.toNat / 16), hexDigit (c.toNat % 16)]

/-- The encoding of one character inside a JSON string, as `encoding/json` writes it with HTML
escaping on (the default of `Encoder`), Go 1.22 and later: quote and backslash are escaped with
a backslash, backspace, form feed, line feed, carriage return and tab have short escapes, the
other control characters and `<`, `>`, `&` are written `\u00XX`, and the line and paragraph
separators (U+2028, U+2029) are written `\u2028`, `\u2029`. -/
def jsonEscapeChar (c : Char) : List Char :=
  if c.toNat = 34 then [Char.ofNat 92, Char.ofNat 34]
  else if c.toNat = 92 then [Char.ofNat 92, Char.ofNat 92]
  else if c.toNat = 8 then [Char.ofNat 92, 'b']
  else if c.toNat = 12 then [Char.ofNat 92, 'f']
  else if c.toNat = 10 then [Char.ofNat 92, 'n']
  else if c.toNat = 13 then [Char.ofNat 92, 'r']
  else if c.toNat = 9 then [Char.ofNat 92, 't']
  else if c.toNat < 32 ∨ c = '<' ∨ c = '>' ∨ c = '&' then jsonUnicodeEscape c
  else if c.toNat = 8232 then [Char.ofNat 92, 'u', '2', '0', '2', '8']
  else if c.toNat = 8233 then [Char.ofNat 92, 'u', '2', '0', '2', '9']
  else [c]

/-- JSON encoding of a Go `string`. -/
def jsonString (s : String) : String :=
  String.mk ([Char.ofNat 34] ++ (s.data.map jsonEscapeChar).flatten ++ [Char.ofNat 34])

/-- JSON encoding of a Go `int`: decimal, with a minus sign when negative. -/
def jsonInt : Int → String
  | Int.ofNat n => String.mk (Nat.toDigits 10 n)
  | Int.negSucc n => "-" ++ String.mk (Nat.toDigits 10 (n + 1))

/-- JSON object from fields whose values are already encoded; the keys are written in the
order given. -/
def jsonObject (fields : List (String × String)) : String :=
  "\x7b" ++ ",".intercalate (fields.map (fun kv => jsonString kv.1 ++ ":" ++ kv.2)) ++ "\x7d"

/-- JSON encoding of a Go `map[string]string` with a single key. -/
def jsonStringMap (key value : String) : String :=
  jsonObject [(key, jsonString value)]

/-- Go `json.NewEncoder(w).Encode(v)` once `v` is encoded: the encoder writes the JSON text
followed by a line feed. -/
def encodeTo (w : ResponseWriter) (json : String) : ResponseWriter :=
  w.Write (json ++ "\n")

/-! ## The handlers -/

/-- Go `root`. -/
def root (w : ResponseWriter) (_r : Request) : Effect :=
  let w1 := w.setHeader "Content-Type" "application/json; charset=utf-8"
  let w2 := encodeTo w1 (jsonStringMap "status" "ok")
  { w := w2, log := ["Got request for /"], control := Control.returned }

/-! ## The MongoDB driver -/

/-- BSON values, restricted to the kinds this model distinguishes: null, 64-bit integers and
strings. -/
inductive BsonValue where
  | null
  | int (n : Int)
  | str (s : String)
deriving DecidableEq, Repr

/-- A BSON document (`bson.D`): its elements in order. -/
abbrev Document := List (String × BsonValue)

/-- The value a document holds under a field name (field names are case-sensitive); the first
element of that name counts. -/
def Document.field (d : Document) (name : String) : Option BsonValue :=
  (d.find? (fun kv => kv.1 == name)).map Prod.snd

/-- The value a query compares for a field: a missing field compares as null. -/
def Document.sortValue (d : Document) (name : String) : BsonValue :=
  (Document.field d name).getD BsonValue.null

/-- Position of a value kind in the BSON comparison order: null, then numbers, then strings. -/
def BsonValue.typeRank : BsonValue → Nat
  | BsonValue.null => 0
  | BsonValue.int _ => 1
  | BsonValue.str _ => 2

/-- The BSON comparison order on values. -/
def BsonValue.cmp : BsonValue → BsonValue → Ordering
  | BsonValue.int x, BsonValue.int y => compare x y
  | BsonValue.str x, BsonValue.str y => compare x y
  | a, b => compare a.typeRank b.typeRank

/-- Comparison of two documents under a sort document: the keys are compared in turn, a
negative direction reverses the comparison of its key. -/
def sortCmp : List (String × Int) → Document → Document → Ordering
  | [], _, _ => Ordering.eq
  | (name, dir) :: rest, a, b =>
    let c := BsonValue.cmp (Document.sortValue a name) (Document.sortValue b name)
    let c1 := if dir < 0 then c.swap else c
    match c1 with
    | Ordering.eq => sortCmp rest a b
    | o => o

/-- Whether `a` may stand before `b` in the order of a sort document. -/
def sortsBefore (sort : List (String × Int)) (a b : Document) : Prop :=
  sortCmp sort a b ≠ Ordering.gt

instance (sort : List (String × Int)) : DecidableRel (sortsBefore sort) :=
  fun a b => inferInstanceAs (Decidable (sortCmp sort a b ≠ Ordering.gt))

/-- Options of a find command (`options.Find()`). -/
structure FindOptions where
  limit : Int := 0
  sort : List (String × Int) := []
deriving DecidableEq, Repr

/-- Go `SetLimit`. -/
def FindOptions.SetLimit (o : FindOptions) (n : Int) : FindOptions :=
  { o with limit := n }

/-- Go `SetSort`. -/
def FindOptions.SetSort (o : FindOptions) (sort : List (String × Int)) : FindOptions :=
  { o with sort := sort }

/-- A cursor as `Cursor.All` drains it: the documents it delivers, in order, and how it ends.
With `err = none` the server closed the cursor with the last batch (cursor id 0) and the driver
sends no further command. With `err = some e` the server left the cursor open after these
documents and the `getMore` the driver sends next fails with `e`. -/
structure Cursor where
  docs : List Document
  err : Option String
deriving DecidableEq, Repr

/-- Whether a document satisfies an equality filter; the empty filter `bson.D{}` selects every
document. -/
def matchesFilter (filter : Document) (d : Document) : Bool :=
  filter.all (fun kv => Document.field d kv.1 == some kv.2)

/-- The effect of a limit on a result: zero means no limit, a negative limit counts like its
absolute value. -/
def applyLimit (limit : Int) (l : List Document) : List Document :=
  if limit = 0 then l else l.take limit.natAbs

/-- How a server answers a find command over the stored documents of a collection: the cursor
it opens for a filter and options. The program takes whatever cursor it is given. -/
abbrev Server := List Document → Document → FindOptions → Cursor

/-- A server that executes the find command as MongoDB documents it: the documents selected by
the filter, sorted by the sort document and cut at the limit, delivered in one batch on a
cursor it closes. MongoDB leaves open in which order documents that compare equal under the
sort document are returned; this server returns them in stored order. -/
def mongod : Server :=
  fun docs filter opts =>
    { docs := applyLimit opts.limit
        (List.insertionSort (sortsBefore opts.sort) (docs.filter (matchesFilter filter)))
      err := none }

/-- The players collection as one request meets it: the stored documents, the error with which
the find command fails before any answer (server unreachable, deadline exceeded, server error),
if it does, and the server that answers. -/
structure Collection where
  docs : List Document
  findErr : Option String := none
  server : Server := mongod

/-- Go `Collection.Find`: the error of the command, or the cursor the server opens. -/
def Collection.Find (c : Collection) (filter : Document) (opts : FindOptions) :
    Except String Cursor :=
  match c.findErr with
  | some err => Except.error err
  | none => Except.ok (c.server c.docs filter opts)

/-- Go `Player`. -/
structure Player where
  Uuid : String
  Lcoins : Int
deriving DecidableEq, Repr

/-- Whether `unicode.ToLower` maps the rune `r` to the ASCII lower-case letter `c`. The runes
the case tables of Go map to an ASCII lower-case letter are the letter itself, its capital, and
two more: U+0130 (capital I with dot above) is mapped to `i` and U+212A (Kelvin sign) to `k`. -/
def lowersTo (r c : Char) : Bool :=
  decide (r = c ∨ (65 ≤ r.toNat ∧ r.toNat ≤ 90 ∧ r.toNat + 32 = c.toNat) ∨
    (r.toNat = 304 ∧ c = 'i') ∨ (r.toNat = 8490 ∧ c = 'k'))

/-- Whether Go `strings.ToLower` of an element name is the key `key`, for a key made of ASCII
lower-case letters: `ToLower` maps rune by rune, so the name must have as many runes as the key
and each must be mapped to the letter at its place. -/
def lowerIs : List Char → List Char → Bool
  | [], [] => true
  | r :: rs, c :: cs => lowersTo r c && lowerIs rs cs
  | _, _ => false

/-- The fields of `Player`, by BSON key. `Player` has no `bson` tags, so the key of a field is
its lower-cased Go name. -/
inductive PlayerField where
  | uuid
  | lcoins
deriving DecidableEq, Repr

/-- The struct field an element name selects when decoding: the name itself is looked up among
the keys, and when it is not a key `strings.ToLower` of the name is looked up. -/
def playerField (name : String) : Option PlayerField :=
  if name = "uuid" then some PlayerField.uuid
  else if name = "lcoins" then some PlayerField.lcoins
  else if lowerIs name.data "uuid".data then some PlayerField.uuid
  else if lowerIs name.data "lcoins".data then some PlayerField.lcoins
  else none

/-- Decoding of a BSON value into a Go `string`. -/
def decodeString : BsonValue → Except String String
  | BsonValue.str s => Except.ok s
  | BsonValue.null => Except.ok ""
  | BsonValue.int _ => Except.error "cannot decode 64-bit integer into a string type"

/-- Decoding of a BSON value into a Go `int`. -/
def decodeInt : BsonValue → Except String Int
  | BsonValue.int n => Except.ok n
  | BsonValue.null => Except.ok 0
  | BsonValue.str _ => Except.error "cannot decode string into an integer type"

/-- Decoding of the elements of a document into a `Player` value, one after the other; an
element that selects no field is skipped, and an error names the key of the field. -/
def decodeInto : Player → Document → Except String Player
  | p, [] => Except.ok p
  | p, (name, v) :: rest =>
    match playerField name with
    | none => decodeInto p rest
    | some PlayerField.uuid =>
      match decodeString v with
      | Except.error e => Except.error ("error decoding key uuid: " ++ e)
      | Except.ok s => decodeInto { p with Uuid := s } rest
    | some PlayerField.lcoins =>
      match decodeInt v with
      | Except.error e => Except.error ("error decoding key lcoins: " ++ e)
      | Except.ok n => decodeInto { p with Lcoins := n } rest

/-- Decoding of a document into a fresh (zero) `Player`. -/
def decodePlayer (d : Document) : Except String Player :=
  decodeInto { Uuid := "", Lcoins := 0 } d

/-- Decoding of the documents of a batch, stopping at the first error. -/
def decodeAll : List Document → Except String (List Player)
  | [] => Except.ok []
  | d :: rest =>
    match decodePlayer d with
    | Except.error e => Except.error e
    | Except.ok p =>
      match decodeAll rest with
      | Except.error e => Except.error e
      | Except.ok ps => Except.ok (p :: ps)

/-- A Go slice value: the nil slice, or a slice with elements (possibly none). -/
inductive Slice (α : Type) where
  | nil
  | mk (elems : List α)
deriving DecidableEq, Repr

/-- The elements of a slice. -/
def Slice.toList {α : Type} : Slice α → List α
  | Slice.nil => []
  | Slice.mk elems => elems

/-- Go `len`. -/
def Slice.len {α : Type} (s : Slice α) : Nat :=
  s.toList.length

/-- Go `Cursor.All(ctx, &results)`: decodes the documents the cursor delivers, in order, and
overwrites `results` with them; it fails at the first document that does not decode, and after
the delivered documents with the error of the failed `getMore`, if the cursor ends in one. The
decoded elements are appended to the slice `results` held before the call and the outcome is
resliced to their number, so a nil slice stays nil when the cursor delivers no document. -/
def Cursor.All (c : Cursor) (results : Slice Player) : Except String (Slice Player) :=
  match decodeAll c.docs with
  | Except.error e => Except.error e
  | Except.ok ps =>
    match c.err with
    | some e => Except.error e
    | none =>
      match ps, results with
      | [], Slice.nil => Except.ok Slice.nil
      | _, _ => Except.ok (Slice.mk ps)

/-- JSON encoding of a `Player`: the fields in declaration order under their `json` tags. -/
def jsonPlayer (p : Player) : String :=
  jsonObject [("uuid", jsonString p.Uuid), ("lcoins", jsonInt p.Lcoins)]

/-- JSON encoding of a `[]Player`: a nil slice is encoded as `null`. -/
def jsonPlayers : Slice Player → String
  | Slice.nil => "null"
  | Slice.mk elems => "[" ++ ",".intercalate (elems.map jsonPlayer) ++ "]"

/-- JSON encoding of the Go value `map[string][]Player` with the single key `result`. -/
def jsonResult (results : Slice Player) : String :=
  jsonObject [("result", jsonPlayers results)]

/-- The find options `top10` builds. -/
def top10FindOptions : FindOptions :=
  (FindOptions.SetLimit {} 10).SetSort [("Lcoins", -1)]

/-- Go `top10`. -/
def top10 (w : ResponseWriter) (players : Collection) : Effect :=
  let w1 := w.setHeader "Content-Type" "application/json; charset=utf-8"
  let findOptions := top10FindOptions
  match players.Find [] findOptions with
  | Except.error err =>
    { w := httpError w1 "Error fetching top players" StatusInternalServerError
      log := ["Error fetching top players: " ++ err]
      control := Control.returned }
  | Except.ok cursor =>
    match cursor.All Slice.nil with
    | Except.error err =>
      { w := httpError w1 "Error processing players" StatusInternalServerError
        log := ["Error processing players: " ++ err]
        control := Control.returned }
    | Except.ok results =>
      { w := encodeTo w1 (jsonResult results)
        log := ["Got request for /list-top/10"]
        control := Control.returned }

/-! ## net/http: request dispatch (`ServeMux`, Go 1.22 and later)

The program registers two plain patterns (no method, host or wildcard) on `DefaultServeMux`.
The mux routes on the escaped path of the request: it cleans it, splits it into segments,
unescapes each segment and compares the segments with those of the patterns. A pattern that
ends in `/` selects every path that continues its segments, any other pattern selects the paths
with exactly its segments, and the longest selecting pattern wins. -/

/-- The elements of a path: the pieces between its slashes. -/
def pathElems : List Char → List (List Char)
  | [] => [[]]
  | c :: cs =>
    if c = '/' then [] :: pathElems cs
    else
      match pathElems cs with
      | [] => [[c]]
      | e :: es => (c :: e) :: es

/-- The elements kept by `path.Clean` on a rooted path, the kept ones so far in reverse: empty
elements and `.` are dropped, `..` drops the element before it (or nothing at the root). -/
def cleanElems : List (List Char) → List (List Char) → List (List Char)
  | kept, [] => kept.reverse
  | kept, e :: es =>
    if e = [] ∨ e = ['.'] then cleanElems kept es
    else if e = ['.', '.'] then cleanElems kept.tail es
    else cleanElems (e :: kept) es

/-- Go `path.Clean` on a rooted path. -/
def pathClean (p : List Char) : List Char :=
  '/' :: List.intercalate ['/'] (cleanElems [] (pathElems p))

/-- Go `cleanPath` of `net/http`: the canonical form of a request path; a trailing slash is
kept. -/
def cleanPath (path : String) : String :=
  match path.data with
  | [] => "/"
  | c :: cs =>
    let p := if c = '/' then c :: cs else '/' :: c :: cs
    let np := pathClean p
    if p.getLast? = some '/' ∧ np ≠ ['/'] then String.mk (np ++ ['/']) else String.mk np

/-- The value of a hexadecimal digit. -/
def hexValue (c : Char) : Option Nat :=
  if 48 ≤ c.toNat ∧ c.toNat ≤ 57 then some (c.toNat - 48)
  else if 97 ≤ c.toNat ∧ c.toNat ≤ 102 then some (c.toNat - 87)
  else if 65 ≤ c.toNat ∧ c.toNat ≤ 70 then some (c.toNat - 55)
  else none

/-- Go `url.PathUnescape`: every `%XY` is replaced by the byte with that code, and a percent
sign not followed by two hexadecimal digits is an error (`none`). A decoded byte is kept as the
character with that code; the segments of the registered patterns are ASCII, and a segment
unescapes to an ASCII text exactly when its decoded bytes are the characters of that text. -/
def unescape : List Char → Option (List Char)
  | [] => some []
  | '%' :: a :: b :: rest =>
    match hexValue a, hexValue b, unescape rest with
    | some x, some y, some t => some (Char.ofNat (16 * x + y) :: t)
    | _, _, _ => none
  | '%' :: _ => none
  | c :: rest => (unescape rest).map (fun t => c :: t)

/-- Go `pathUnescape` of `net/http`: the unescaped segment, or the segment as it is when it
does not unescape. -/
def pathUnescape (segment : List Char) : List Char :=
  (unescape segment).getD segment

/-- The segments of a path or of a pattern: what stands between the slashes after the leading
one; a path that does not begin with a slash has none. -/
def pathSegments (path : String) : Option (List (List Char)) :=
  match path.data with
  | [] => none
  | c :: rest => if c = '/' then some (pathElems rest) else none

/-- Whether a plain pattern selects an escaped path. -/
def patternMatches (pattern path : String) : Bool :=
  match pathSegments pattern, pathSegments path with
  | some ps, some qs =>
    let segments := qs.map pathUnescape
    if ps.getLast? = some [] then
      ps.dropLast.isPrefixOf segments && decide (ps.dropLast.length < segments.length)
    else ps == segments
  | _, _ => false

/-- The longest of the registered patterns that select the path, if any. -/
def bestPattern (patterns : List String) (path : String) : Option String :=
  (patterns.filter (fun p => patternMatches p path)).foldl
    (fun best p =>
      match best with
      | none => some p
      | some b => if b.length < p.length then some p else some b)
    none

/-- The outcome of routing a request. -/
inductive Dispatch where
  | handler (pattern : String)
  | redirect (location : String)
  | notFound
  | badRequest
  | serverOptions
deriving DecidableEq, Repr

/-- Go `exactMatch`: a selecting pattern without trailing slash matches exactly; one with a
trailing slash matches exactly when the path ends in a slash too and has as many slashes as
the pattern. -/
def exactMatch (best : Option String) (path : String) : Bool :=
  match best with
  | none => false
  | some p =>
    if p.data.getLast? = some '/' then
      decide (path.data.getLast? = some '/') && decide (p.data.count '/' = path.data.count '/')
    else true

/-- The redirect of `/tree` to `/tree/`: it applies to a path without trailing slash that is
not matched exactly while the path followed by a slash is. -/
def slashRedirect (patterns : List String) (path : String) : Bool :=
  !exactMatch (bestPattern patterns path) path &&
    !decide (path.data.getLast? = some '/') &&
    exactMatch (bestPattern patterns (path ++ "/")) (path ++ "/")

/-- The target of a redirect: the path, and the query of the request when it has one. -/
def redirectTarget (path rawQuery : String) : String :=
  if rawQuery = "" then path else path ++ "?" ++ rawQuery

/-- Routing of a request by the server and `ServeMux.ServeHTTP` over the registered patterns.
The request `*` is answered by the server itself for `OPTIONS` and refused with status 400
otherwise. The path of a `CONNECT` request is used as it is. For every other method the path
is cleaned first, and a request whose path is not in clean form is answered with a redirect to
the clean path. A request that no pattern selects gets status 404. -/
def dispatch (patterns : List String) (r : Request) : Dispatch :=
  if r.path = "*" then
    if r.method = "OPTIONS" then Dispatch.serverOptions else Dispatch.badRequest
  else if r.method = "CONNECT" then
    if slashRedirect patterns r.path then
      Dispatch.redirect (redirectTarget (cleanPath r.path ++ "/") r.rawQuery)
    else
      match bestPattern patterns r.path with
      | some p => Dispatch.handler p
      | none => Dispatch.notFound
  else
    let path := cleanPath r.path
    if slashRedirect patterns path then
      Dispatch.redirect (redirectTarget (cleanPath r.path ++ "/") r.rawQuery)
    else if path ≠ r.path then Dispatch.redirect (redirectTarget path r.rawQuery)
    else
      match bestPattern patterns path with
      | some p => Dispatch.handler p
      | none => Dispatch.notFound

/-- A handle on a named collection of a named database. -/
structure CollectionHandle where
  database : String
  name : String
deriving DecidableEq, Repr

/-- The MongoDB deployment as one request meets it: what each collection handle finds. -/
abbrev Deployment := CollectionHandle → Collection

/-- A registered handler function; it runs against the deployment of the moment. -/
abbrev HandlerFunc := Deployment → ResponseWriter → Request → Effect

/-- The registrations of a `ServeMux`, in order. -/
abbrev ServeMux := List (String × HandlerFunc)

/-- Go `http.HandleFunc`. -/
def HandleFunc (mux : ServeMux) (pattern : String) (handler : HandlerFunc) : ServeMux :=
  mux ++ [(pattern, handler)]

/-- The handler registered under a pattern. -/
def ServeMux.lookup (mux : ServeMux) (pattern : String) : Option HandlerFunc :=
  (mux.find? (fun e => e.1 == pattern)).map Prod.snd

/-- What a client receives from a handler: the status code, the headers the handler set, and
the body. -/
structure Response where
  status : Nat
  header : Header
  body : String
deriving DecidableEq, Repr

/-- The response the server sends for what a handler wrote: in answer to a `HEAD` request the
server sends the status line and the headers and drops the body. -/
def ResponseWriter.response (w : ResponseWriter) (method : String) : Response :=
  { status := w.status
    header := w.sentHeader
    body := if method = "HEAD" then "" else w.body }

/-- What the client of one request gets: the response of the handler registered under a
pattern (with the lines that handler logged), or one of the answers of the library itself. -/
inductive Served where
  | handled (pattern : String) (response : Response) (log : List String)
  | redirected (location : String)
  | notFound
  | badRequest
  | serverOptions
deriving DecidableEq, Repr

/-- Go `http.StatusTemporaryRedirect`, the status of the redirects of the mux. -/
def StatusTemporaryRedirect : Nat := 307

/-- The status code of what a client gets. -/
def Served.status : Served → Nat
  | Served.handled _ response _ => response.status
  | Served.redirected _ => StatusTemporaryRedirect
  | Served.notFound => 404
  | Served.badRequest => 400
  | Served.serverOptions => 200

/-- The response writer the server hands to a handler: nothing set, nothing written. -/
def newResponseWriter : ResponseWriter := {}

/-- One request served by the mux: the request is routed, the selected handler runs on a fresh
response writer, and the server sends what it wrote. -/
def ServeMux.serve (mux : ServeMux) (db : Deployment) (r : Request) : Served :=
  match dispatch (mux.map Prod.fst) r with
  | Dispatch.handler pattern =>
    match mux.lookup pattern with
    | some h =>
      let effect := h db newResponseWriter r
      Served.handled pattern (effect.w.response r.method) effect.log
    | none => Served.notFound
  | Dispatch.redirect location => Served.redirected location
  | Dispatch.notFound => Served.notFound
  | Dispatch.badRequest => Served.badRequest
  | Dispatch.serverOptions => Served.serverOptions

/-! ## Start-up -/

/-- The surroundings `main` starts in: the outcome of loading `.env`, the environment
variables after loading, and the outcomes of constructing the client, of the ping and of
binding the listener (`none`: no error; for the listener, the server runs). -/
structure Env where
  dotenvErr : Option String := none
  PORT : String := ""
  MONGO_URI : String := ""
  DB : String := ""
  connectErr : Option String := none
  pingErr : Option String := none
  listenErr : Option String := none
deriving DecidableEq, Repr

/-- The calls `main` makes that matter for the start-up order. -/
inductive Step where
  | godotenvLoad
  | mongoConnect (uri : String)
  | clientPing
  | collection (handle : CollectionHandle)
  | logPrint (msg : String)
  | handleFunc (pattern : String)
  | listenAndServe (addr : String)
  | logFatal (msg : String)
deriving DecidableEq, Repr

/-- Where `main` ends up: serving on an address with the registered handlers, or exited. -/
inductive Final where
  | serving (addr : String) (mux : ServeMux)
  | exited (code : Nat)

/-- Whether the process serves requests. -/
def Final.isServing : Final → Bool
  | Final.serving _ _ => true
  | Final.exited _ => false

/-- The exit code of the process, when it has exited. -/
def Final.exitCode : Final → Option Nat
  | Final.serving _ _ => none
  | Final.exited code => some code

/-- A run of `main`: the calls made in order, and where it ended up. -/
structure Run where
  trace : List Step
  final : Final

/-- Go `log.Fatal`/`log.Fatalf` at the end of the calls made so far. -/
def fatal (trace : List Step) (msg : String) : Run :=
  { trace := trace ++ [Step.logFatal msg], final := Final.exited 1 }

/-- The handler `main` registers for `/`. -/
def rootHandler : HandlerFunc :=
  fun _ w r => root w r

/-- The closure `main` registers for `/list-top/10`: it passes the response writer and the
collection handle to `top10` and does not use the request. -/
def top10Handler (players : CollectionHandle) : HandlerFunc :=
  fun db w _ => top10 w (db players)

/-- Go `main`. -/
def main (env : Env) : Run :=
  let t0 := [Step.godotenvLoad]
  match env.dotenvErr with
  | some _ => fatal t0 "Error loading .env file"
  | none =>
    let port := env.PORT
    let mongoURI := env.MONGO_URI
    let dbName := env.DB
    let t1 := t0 ++ [Step.mongoConnect mongoURI]
    match env.connectErr with
    | some err => fatal t1 ("Failed to connect to MongoDB: " ++ err)
    | none =>
      let t2 := t1 ++ [Step.clientPing]
      match env.pingErr with
      | some err => fatal t2 ("Could not ping MongoDB: " ++ err)
      | none =>
        let players : CollectionHandle := { database := dbName, name := "players" }
        let t3 := t2 ++ [Step.collection players, Step.logPrint "MongoDB Connected"]
        let mux1 := HandleFunc [] "/" rootHandler
        let mux2 := HandleFunc mux1 "/list-top/10" (top10Handler players)
        let t4 := t3 ++ [Step.handleFunc "/", Step.handleFunc "/list-top/10",
          Step.logPrint ("Starting server on port " ++ port),
          Step.listenAndServe (":" ++ port)]
        match env.listenErr with
        | some err => fatal t4 err
        | none => { trace := t4, final := Final.serving (":" ++ port) mux2 }

/-- What the client of a request gets from the process started in `env`, when that process
serves. -/
def serveFrom (env : Env) (db : Deployment) (r : Request) : Option Served :=
  match (main env).final with
  | Final.serving _ mux => some (mux.serve db r)
  | Final.exited _ => none

/-! ## Vocabulary of the statements -/

/-- The document stores the score `n` under the field the sort document names: it holds the
integer `n` under `Lcoins`, and every element that is decoded into the `Lcoins` field of
`Player` (an element whose name is `lcoins` or is lower-cased to it) holds that same
integer. -/
def StoresScore (d : Document) (n : Int) : Prop :=
  Document.field d "Lcoins" = some (BsonValue.int n) ∧
    ∀ kv ∈ d, playerField kv.1 = some PlayerField.lcoins → kv.2 = BsonValue.int n

instance (d : Document) (n : Int) : Decidable (StoresScore d n) :=
  inferInstanceAs (Decidable (_ ∧ _))

/-- The server answers the find command as MongoDB specifies it: `sorted` is an arrangement of
the stored documents the filter selects in the order of the sort document (documents that
compare equal stand in any order), and the cursor delivers `sorted` cut at the limit and is
closed. -/
def Answers (server : Server) (docs : List Document) (filter : Document) (opts : FindOptions)
    (sorted : List Document) : Prop :=
  sorted.Perm (docs.filter (matchesFilter filter)) ∧
    sorted.Sorted (sortsBefore opts.sort) ∧
    server docs filter opts = { docs := applyLimit opts.limit sorted, err := none }

/-- No two different documents tie under the sort document: when each of two documents may
stand before the other they are the same document. -/
def NoTies (sort : List (String × Int)) (docs : List Document) : Prop :=
  ∀ a ∈ docs, ∀ b ∈ docs, sortsBefore sort a b → sortsBefore sort b a → a = b

instance (sort : List (String × Int)) (docs : List Document) : Decidable (NoTies sort docs) :=
  inferInstanceAs (Decidable (∀ a ∈ docs, ∀ b ∈ docs, _))

/-- The integer a document holds under `Lcoins` (zero when it holds none). -/
def storedScore (d : Document) : Int :=
  match Document.field d "Lcoins" with
  | some (BsonValue.int n) => n
  | _ => 0

/-- The seed of the end-to-end scenario, the scores stored under `Lcoins`. -/
def seedPlayers : Collection :=
  { docs := [[("uuid", BsonValue.str "a"), ("Lcoins", BsonValue.int 5)],
             [("uuid", BsonValue.str "b"), ("Lcoins", BsonValue.int 50)],
             [("uuid", BsonValue.str "c"), ("Lcoins", BsonValue.int 20)]] }

/-- The seed in the order of the sort document. -/
def seedSorted : List Document :=
  [[("uuid", BsonValue.str "b"), ("Lcoins", BsonValue.int 50)],
   [("uuid", BsonValue.str "c"), ("Lcoins", BsonValue.int 20)],
   [("uuid", BsonValue.str "a"), ("Lcoins", BsonValue.int 5)]]

/-- A collection with one player stored under `Lcoins` and one stored under `lcoins`. -/
def mixedCasePlayers : Collection :=
  { docs := [[("uuid", BsonValue.str "a"), ("Lcoins", BsonValue.int 5)],
             [("uuid", BsonValue.str "b"), ("lcoins", BsonValue.int 50)]] }

/-- The empty players collection, reachable and healthy. -/
def emptyPlayers : Collection :=
  { docs := [] }

/-- A players collection whose server cannot be reached. -/
def unreachablePlayers : Collection :=
  { docs := [], findErr := some "server selection error: context deadline exceeded" }

/-- A players collection whose first document holds text as its score. -/
def undecodablePlayers : Collection :=
  { docs := [[("uuid", BsonValue.str "a"), ("Lcoins", BsonValue.str "many")]] }

/-- A players collection whose cursor fails while it is drained: the server delivers the first
document, leaves the cursor open, and the connection is lost before the next batch. -/
def brokenCursorPlayers : Collection :=
  { docs := seedPlayers.docs
    server := fun docs _ _ => { docs := docs.take 1, err := some "connection reset by peer" } }

/-- A server that returns every stored document in stored order: it applies neither the sort
document nor the limit of the find command. -/
def scanServer : Server :=
  fun docs _ _ => { docs := docs, err := none }

/-- A server that executes the find command like `mongod` but does not apply the limit. -/
def unlimitedServer : Server :=
  fun docs filter opts => mongod docs filter { opts with limit := 0 }

/-- Twelve players `p0` to `p11`, player `pi` holding `i` coins under `Lcoins`. -/
def twelveDocs : List Document :=
  (List.range 12).map
    (fun i => [("uuid", BsonValue.str ("p" ++ toString i)), ("Lcoins", BsonValue.int i)])

/-- Two players with the same score. -/
def tiedDocs : List Document :=
  [[("uuid", BsonValue.str "a"), ("Lcoins", BsonValue.int 7)],
   [("uuid", BsonValue.str "b"), ("Lcoins", BsonValue.int 7)]]

/-- A server that executes the find command like `mongod` but meets the stored documents in
the opposite order, so that documents that compare equal come out the other way round. -/
def reverseScanServer : Server :=
  fun docs filter opts => mongod docs.reverse filter opts

/-- The deployment `main` connects to in the scenarios: database `legiticoin`, every handle
finding the given collection. -/
def scenarioEnv : Env :=
  { PORT := "8080", DB := "legiticoin" }

/-! ## Auxiliary facts -/

/-- The empty filter selects every document. -/
theorem filter_empty_filter (docs : List Document) :
    docs.filter (matchesFilter []) = docs := by
  simp [matchesFilter]

/-- A find command that succeeds returns the cursor the server opens. -/
theorem find_ok {players : Collection} {filter : Document} {opts : FindOptions}
    {cursor : Cursor} (h : players.Find filter opts = Except.ok cursor) :
    players.findErr = none ∧ cursor = players.server players.docs filter opts := by
  unfold Collection.Find at h
  cases hf : players.findErr with
  | some e => simp [hf] at h
  | none =>
    simp only [hf, Except.ok.injEq] at h
    exact ⟨rfl, h.symm⟩

/-- What a server that answers the find command of `top10` as specified delivers: the first ten
of the documents in sorted order, on a closed cursor. -/
theorem answers_top10 {players : Collection} {sorted : List Document} {cursor : Cursor}
    (hs : Answers players.server players.docs [] top10FindOptions sorted)
    (hf : players.Find [] top10FindOptions = Except.ok cursor) :
    sorted.Perm players.docs ∧ sorted.Sorted (sortsBefore [("Lcoins", -1)]) ∧
      cursor.docs = sorted.take 10 ∧ cursor.err = none := by
  obtain ⟨hperm, hsorted, hreply⟩ := hs
  rw [filter_empty_filter] at hperm
  have hc := (find_ok hf).2
  rw [hreply] at hc
  subst hc
  refine ⟨hperm, hsorted, ?_, rfl⟩
  simp [applyLimit, top10FindOptions, FindOptions.SetLimit, FindOptions.SetSort]

/-- A batch that decodes yields one player per document, each the decoding of its document. -/
theorem decodeAll_ok {docs : List Document} {ps : List Player}
    (h : decodeAll docs = Except.ok ps) :
    List.Forall₂ (fun d p => decodePlayer d = Except.ok p) docs ps := by
  induction docs generalizing ps with
  | nil =>
    simp [decodeAll] at h
    subst h
    exact List.Forall₂.nil
  | cons d rest ih =>
    unfold decodeAll at h
    cases hd : decodePlayer d with
    | error e => simp [hd] at h
    | ok p =>
      cases hr : decodeAll rest with
      | error e => simp [hd, hr] at h
      | ok qs =>
        simp [hd, hr] at h
        subst h
        exact List.Forall₂.cons hd (ih hr)

/-- `Cursor.All` into a nil slice succeeds only when every delivered document decodes and the
cursor does not end in an error; the slice is nil when no document was delivered and holds the
decoded players otherwise. -/
theorem all_ok {cursor : Cursor} {results : Slice Player}
    (h : cursor.All Slice.nil = Except.ok results) :
    ∃ ps : List Player, decodeAll cursor.docs = Except.ok ps ∧ cursor.err = none ∧
      results = (if ps = [] then Slice.nil else Slice.mk ps) := by
  unfold Cursor.All at h
  cases hd : decodeAll cursor.docs with
  | error e => simp [hd] at h
  | ok ps =>
    cases he : cursor.err with
    | some e => simp [hd, he] at h
    | none =>
      cases ps with
      | nil =>
        simp [hd, he] at h
        subst h
        exact ⟨[], rfl, rfl, rfl⟩
      | cons p qs =>
        simp [hd, he] at h
        subst h
        exact ⟨p :: qs, rfl, rfl, by simp⟩

/-- The success path of `top10`: the encoded result is written to the response. -/
theorem top10_ok {players : Collection} {cursor : Cursor} {results : Slice Player}
    (w : ResponseWriter)
    (hf : players.Find [] top10FindOptions = Except.ok cursor)
    (ha : cursor.All Slice.nil = Except.ok results) :
    top10 w players =
      { w := encodeTo (w.setHeader "Content-Type" "application/json; charset=utf-8")
          (jsonResult results)
        log := ["Got request for /list-top/10"]
        control := Control.returned } := by
  simp [top10, hf, ha]

/-- Encoding onto a fresh response with the JSON content type set: status 200, the JSON text
followed by a line feed, the JSON content type sent. -/
theorem encodeTo_fresh_json (json : String) :
    (encodeTo (newResponseWriter.setHeader "Content-Type" "application/json; charset=utf-8")
        json).status = 200 ∧
      (encodeTo (newResponseWriter.setHeader "Content-Type" "application/json; charset=utf-8")
        json).body = json ++ "\n" ∧
      Header.get (encodeTo (newResponseWriter.setHeader "Content-Type"
        "application/json; charset=utf-8") json).sentHeader "Content-Type" =
        some "application/json; charset=utf-8" := by
  refine ⟨rfl, ?_, rfl⟩
  simp [encodeTo, ResponseWriter.Write, ResponseWriter.WriteHeader, ResponseWriter.setHeader,
    newResponseWriter]

/-- The decimal text `jsonInt` writes is the decimal text of the integer. -/
theorem jsonInt_eq (n : Int) : jsonInt n = toString n := by
  cases n <;> rfl

/-- The text `jsonPlayer` writes for a player. -/
theorem jsonPlayer_eq (p : Player) :
    jsonPlayer p =
      "\x7b\"uuid\":" ++ jsonString p.Uuid ++ ",\"lcoins\":" ++ toString p.Lcoins ++ "\x7d" := by
  rw [← jsonInt_eq]
  apply String.ext
  simp [jsonPlayer, jsonObject, String.intercalate, String.intercalate.go, jsonString,
    String.data_append, jsonEscapeChar]

/-- The text `jsonResult` writes: `null` for the nil slice, an array of the players
otherwise. -/
theorem jsonResult_eq (ps : List Player) :
    jsonResult (if ps = [] then Slice.nil else Slice.mk ps) ++ "\n" =
      "\x7b\"result\":" ++
        (if ps = [] then "null"
          else "[" ++ ",".intercalate (ps.map (fun p =>
            "\x7b\"uuid\":" ++ jsonString p.Uuid ++ ",\"lcoins\":" ++ toString p.Lcoins ++
              "\x7d")) ++ "]") ++ "\x7d\n" := by
  have hfun : (fun p : Player =>
      "\x7b\"uuid\":" ++ jsonString p.Uuid ++ ",\"lcoins\":" ++ toString p.Lcoins ++ "\x7d") =
      jsonPlayer := by
    funext p
    exact (jsonPlayer_eq p).symm
  rw [hfun]
  by_cases h : ps = []
  · subst h
    decide
  · simp only [h, if_false]
    apply String.ext
    simp [jsonResult, jsonObject, jsonPlayers, String.intercalate, String.intercalate.go,
      jsonString, String.data_append, jsonEscapeChar]

/-- The sort value of a document that stores a score is that score. -/
theorem sortValue_of_storesScore {d : Document} {n : Int} (h : StoresScore d n) :
    Document.sortValue d "Lcoins" = BsonValue.int n := by
  simp [Document.sortValue, h.1]

/-- On documents that store scores the sort document of `top10` orders by score, higher
first. -/
theorem sortsBefore_iff_score {a b : Document} {x y : Int}
    (ha : StoresScore a x) (hb : StoresScore b y) :
    sortsBefore [("Lcoins", -1)] a b ↔ x ≥ y := by
  unfold sortsBefore sortCmp
  simp only [sortValue_of_storesScore ha, sortValue_of_storesScore hb, BsonValue.cmp]
  rcases lt_trichotomy x y with h | h | h
  · have hc : compare x y = Ordering.lt := compare_lt_iff_lt.mpr h
    simp [hc, Ordering.swap]
    omega
  · have hc : compare x y = Ordering.eq := compare_eq_iff_eq.mpr h
    simp [hc, Ordering.swap, sortCmp]
    omega
  · have hc : compare x y = Ordering.gt := compare_gt_iff_gt.mpr h
    simp [hc, Ordering.swap]
    omega

/-- Decoding a document all of whose `lcoins` elements hold `n` either sets `Lcoins` to `n` or
meets no such element and leaves `Lcoins` as it was. -/
theorem decodeInto_lcoins {n : Int} (d : Document) :
    ∀ (p q : Player),
      (∀ kv ∈ d, playerField kv.1 = some PlayerField.lcoins → kv.2 = BsonValue.int n) →
      decodeInto p d = Except.ok q →
      q.Lcoins = n ∨
        (q.Lcoins = p.Lcoins ∧ ∀ kv ∈ d, playerField kv.1 ≠ some PlayerField.lcoins) := by
  induction d with
  | nil =>
    intro p q _ h
    simp [decodeInto] at h
    subst h
    exact Or.inr ⟨rfl, by simp⟩
  | cons kv rest ih =>
    intro p q hall h
    obtain ⟨name, v⟩ := kv
    have hrest : ∀ kv ∈ rest, playerField kv.1 = some PlayerField.lcoins →
        kv.2 = BsonValue.int n := fun kv hkv => hall kv (List.mem_cons_of_mem _ hkv)
    unfold decodeInto at h
    cases hp : playerField name with
    | none =>
      simp only [hp] at h
      rcases ih p q hrest h with h1 | ⟨h1, h2⟩
      · exact Or.inl h1
      · refine Or.inr ⟨h1, ?_⟩
        intro kv hkv
        rcases List.mem_cons.mp hkv with rfl | hkv
        · simp [hp]
        · exact h2 kv hkv
    | some f =>
      cases f with
      | uuid =>
        simp only [hp] at h
        cases hs : decodeString v with
        | error e => simp [hs] at h
        | ok s =>
          simp only [hs] at h
          rcases ih _ q hrest h with h1 | ⟨h1, h2⟩
          · exact Or.inl h1
          · refine Or.inr ⟨h1, ?_⟩
            intro kv hkv
            rcases List.mem_cons.mp hkv with rfl | hkv
            · simp [hp]
            · exact h2 kv hkv
      | lcoins =>
        simp only [hp] at h
        have hv : v = BsonValue.int n := hall (name, v) (List.mem_cons_self _ _) hp
        subst hv
        simp only [decodeInt] at h
        rcases ih _ q hrest h with h1 | ⟨h1, _⟩
        · exact Or.inl h1
        · exact Or.inl h1

/-- A document that stores the score `n` decodes to a player with `Lcoins = n`. -/
theorem decodePlayer_lcoins {d : Document} {n : Int} {p : Player}
    (hs : StoresScore d n) (h : decodePlayer d = Except.ok p) : p.Lcoins = n := by
  rcases decodeInto_lcoins d _ p hs.2 h with h1 | ⟨_, h2⟩
  · exact h1
  · exfalso
    have hf := hs.1
    unfold Document.field at hf
    cases hfind : List.find? (fun kv => kv.1 == "Lcoins") d with
    | none => simp [hfind] at hf
    | some kv =>
      have hmem := List.mem_of_find?_eq_some hfind
      have hkey := List.find?_some hfind
      simp at hkey
      apply h2 kv hmem
      rw [hkey]
      decide

/-- The scores of the decoded players are the stored scores of their documents. -/
theorem decoded_scores {score : Document → Int} :
    ∀ {docs : List Document} {ps : List Player},
      (∀ d ∈ docs, StoresScore d (score d)) →
      List.Forall₂ (fun d p => decodePlayer d = Except.ok p) docs ps →
      ps.map Player.Lcoins = docs.map score := by
  intro docs ps hs h
  induction h with
  | nil => rfl
  | cons hd _ ih =>
    simp only [List.map_cons]
    rw [decodePlayer_lcoins (hs _ (List.mem_cons_self _ _)) hd,
      ih (fun d hd => hs d (List.mem_cons_of_mem _ hd))]

/-- Documents that store their scores and stand in the order of the sort document of `top10`
stand in the order of their scores, higher first. -/
theorem sorted_by_score (score : Document → Int) {sorted : List Document}
    (hs : ∀ d ∈ sorted, StoresScore d (score d))
    (h : sorted.Sorted (sortsBefore [("Lcoins", -1)])) :
    sorted.Pairwise (fun a b => score a ≥ score b) :=
  List.Pairwise.imp_of_mem
    (fun ha hb hab => (sortsBefore_iff_score (hs _ ha) (hs _ hb)).mp hab) h

/-- The response writers of `top10` on two collections whose find commands get the same reply
are the same. -/
theorem top10_congr (w : ResponseWriter) {c1 c2 : Collection}
    (h : c1.Find [] top10FindOptions = c2.Find [] top10FindOptions) :
    top10 w c1 = top10 w c2 := by
  unfold top10
  simp only [h]

/-- Two answers to the find command of `top10` over the same documents are the same answer
when no two documents tie. -/
theorem answers_unique {c1 c2 : Collection} {sorted1 sorted2 : List Document}
    (hdocs : c1.docs = c2.docs)
    (he1 : c1.findErr = none) (he2 : c2.findErr = none)
    (ha1 : Answers c1.server c1.docs [] top10FindOptions sorted1)
    (ha2 : Answers c2.server c2.docs [] top10FindOptions sorted2)
    (hties : NoTies top10FindOptions.sort c1.docs) :
    c1.Find [] top10FindOptions = c2.Find [] top10FindOptions := by
  obtain ⟨hp1, hs1, hr1⟩ := ha1
  obtain ⟨hp2, hs2, hr2⟩ := ha2
  rw [filter_empty_filter] at hp1 hp2
  have hperm : sorted1.Perm sorted2 := hp1.trans (hdocs ▸ hp2.symm)
  have heq : sorted1 = sorted2 :=
    List.Perm.eq_of_sorted
      (fun a b ha hb hab hba =>
        hties a (hp1.subset ha) b (hdocs ▸ hp2.subset hb) hab hba)
      hs1 hs2 hperm
  unfold Collection.Find
  rw [he1, he2, hr1, hr2, heq]

/-- The answer to `HEAD` apart, the response the server sends does not depend on the
method. -/
theorem response_congr (w : ResponseWriter) {m1 m2 : String}
    (h : m1 = "HEAD" ↔ m2 = "HEAD") : w.response m1 = w.response m2 := by
  unfold ResponseWriter.response
  by_cases h1 : m1 = "HEAD"
  · simp [h1, h.mp h1]
  · have h2 : ¬ m2 = "HEAD" := fun h2 => h1 (h.mpr h2)
    simp [h1, h2]

/-- A run of `main` that serves has passed every start-up step and registered exactly the two
handlers. -/
theorem main_serving {env : Env} {addr : String} {mux : ServeMux}
    (h : (main env).final = Final.serving addr mux) :
    env.dotenvErr = none ∧ env.connectErr = none ∧ env.pingErr = none ∧ env.listenErr = none ∧
      addr = ":" ++ env.PORT ∧
      mux = [("/", rootHandler),
        ("/list-top/10", top10Handler { database := env.DB, name := "players" })] := by
  unfold main at h
  cases h1 : env.dotenvErr with
  | some e => simp [h1, fatal] at h
  | none =>
    cases h2 : env.connectErr with
    | some e => simp [h1, h2, fatal] at h
    | none =>
      cases h3 : env.pingErr with
      | some e => simp [h1, h2, h3, fatal] at h
      | none =>
        cases h4 : env.listenErr with
        | some e => simp [h1, h2, h3, h4, fatal] at h
        | none =>
          simp [h1, h2, h3, h4, HandleFunc] at h
          exact ⟨rfl, rfl, rfl, rfl, h.1.symm, h.2.symm⟩

/-- A cleaned path starts with a slash. -/
theorem cleanPath_head (p : String) : ∃ t, (cleanPath p).data = '/' :: t := by
  unfold cleanPath
  split
  · exact ⟨[], rfl⟩
  · simp only [pathClean]
    split_ifs <;> exact ⟨_, rfl⟩

/-- A path has at least one element. -/
theorem pathElems_ne_nil (t : List Char) : pathElems t ≠ [] := by
  cases t with
  | nil => simp [pathElems]
  | cons c cs =>
    unfold pathElems
    split_ifs
    · simp
    · split <;> simp

/-- The elements of a path that ends in a slash: at least two, the last one empty. -/
theorem pathElems_append_slash (t : List Char) :
    ∃ e es, pathElems (t ++ ['/']) = e :: es ∧ es ≠ [] ∧ es.getLast? = some [] := by
  induction t with
  | nil => exact ⟨[], [[]], by simp [pathElems], by simp, by simp⟩
  | cons c cs ih =>
    obtain ⟨e, es, h, hne, hlast⟩ := ih
    by_cases hc : c = '/'
    · refine ⟨[], e :: es, ?_, by simp, ?_⟩
      · simp [pathElems, hc, h]
      · cases es with
        | nil => exact absurd rfl hne
        | cons x xs => rw [List.getLast?_cons_cons]; exact hlast
    · refine ⟨c :: e, es, ?_, hne, hlast⟩
      simp [pathElems, hc, h]

/-- Routing, over the two registered patterns, of a request whose path begins with a slash and
is in clean form or comes with the method `CONNECT`: the request goes to the handler of
`/list-top/10` when that pattern selects its path and to the handler of `/` otherwise. -/
theorem dispatch_routable (r : Request) (hslash : ∃ t, r.path.data = '/' :: t)
    (hclean : r.method = "CONNECT" ∨ cleanPath r.path = r.path) :
    dispatch ["/", "/list-top/10"] r =
      if patternMatches "/list-top/10" r.path then Dispatch.handler "/list-top/10"
      else Dispatch.handler "/" := by
  obtain ⟨t, ht⟩ := hslash
  have hstar : r.path ≠ "*" := by
    intro h
    rw [h] at ht
    simp at ht
  have hdata2 : (r.path ++ "/").data = '/' :: (t ++ ['/']) := by
    rw [String.data_append, ht]
    rfl
  have hroot : patternMatches "/" r.path = true := by
    have := pathElems_ne_nil t
    simp [patternMatches, pathSegments, ht, pathElems, List.length_pos, this]
  have hroot2 : patternMatches "/" (r.path ++ "/") = true := by
    have := pathElems_ne_nil (t ++ ['/'])
    simp [patternMatches, pathSegments, hdata2, pathElems, List.length_pos, this]
  have htop2 : patternMatches "/list-top/10" (r.path ++ "/") = false := by
    obtain ⟨e, es, h1, h2, h3⟩ := pathElems_append_slash t
    have hlast : ((pathElems (t ++ ['/'])).map pathUnescape).getLast? = some [] := by
      rw [List.getLast?_map, h1]
      cases es with
      | nil => exact absurd rfl h2
      | cons x xs =>
        rw [List.getLast?_cons_cons, h3]
        rfl
    simp only [patternMatches, pathSegments, hdata2]
    have hp : pathElems "list-top/10".data = ["list-top".data, "10".data] := by decide
    have hpat : "/list-top/10".data = '/' :: "list-top/10".data := rfl
    simp only [hpat, if_true, hp]
    have hne : (["list-top".data, "10".data] : List (List Char)).getLast? ≠ some [] := by
      decide
    simp only [hne, if_false]
    rw [beq_eq_false_iff_ne]
    intro h
    rw [← h] at hlast
    revert hlast
    decide
  have hbest : bestPattern ["/", "/list-top/10"] r.path =
      if patternMatches "/list-top/10" r.path then some "/list-top/10" else some "/" := by
    by_cases hp : patternMatches "/list-top/10" r.path = true
    · have hlen : "/".length < "/list-top/10".length := by decide
      simp [bestPattern, List.filter, hroot, hp, hlen]
    · simp [bestPattern, List.filter, hroot, hp]
  have hbest2 : bestPattern ["/", "/list-top/10"] (r.path ++ "/") = some "/" := by
    simp [bestPattern, List.filter, hroot2, htop2]
  have hexact : exactMatch (some "/") (r.path ++ "/") = false := by
    have h1 : List.count '/' "/".data = 1 := by decide
    have hl : "/".data.getLast? = some '/' := by decide
    have hcnt : List.count '/' (r.path ++ "/").data = List.count '/' t + 2 := by
      rw [hdata2]
      simp [List.count_cons, List.count_append]
    simp only [exactMatch, hl, if_true, h1, hcnt]
    simp
  have hredirect : slashRedirect ["/", "/list-top/10"] r.path = false := by
    simp [slashRedirect, hbest2, hexact]
  unfold dispatch
  by_cases hm : r.method = "CONNECT"
  · simp only [hstar, if_false, hm, if_true, hredirect, hbest]
    split_ifs <;> simp_all
  · have hc : cleanPath r.path = r.path := hclean.resolve_left hm
    simp only [hstar, if_false, hm, hc, hredirect, hbest]
    split_ifs <;> simp_all

/-- What the serving process answers to a request whose path begins with a slash and is in
clean form or comes with the method `CONNECT`. -/
theorem serve_routable {env : Env} {addr : String} {mux : ServeMux}
    (hm : (main env).final = Final.serving addr mux) (db : Deployment) (r : Request)
    (hslash : ∃ t, r.path.data = '/' :: t)
    (hclean : r.method = "CONNECT" ∨ cleanPath r.path = r.path) :
    mux.serve db r =
      if patternMatches "/list-top/10" r.path then
        Served.handled "/list-top/10"
          ((top10 newResponseWriter
            (db { database := env.DB, name := "players" })).w.response r.method)
          (top10 newResponseWriter (db { database := env.DB, name := "players" })).log
      else
        Served.handled "/" ((root newResponseWriter r).w.response r.method)
          (root newResponseWriter r).log := by
  obtain ⟨_, _, _, _, _, hmux⟩ := main_serving hm
  subst hmux
  unfold ServeMux.serve
  simp only [List.map]
  rw [dispatch_routable r hslash hclean]
  by_cases hp : patternMatches "/list-top/10" r.path = true
  · simp [hp, ServeMux.lookup, top10Handler]
  · simp [hp, ServeMux.lookup, rootHandler]

/-- A run of `main` either passes all four fallible steps and serves, or exits with code 1. -/
theorem main_cases (env : Env) :
    (env.dotenvErr = none ∧ env.connectErr = none ∧ env.pingErr = none ∧ env.listenErr = none ∧
      (main env).final.isServing = true ∧ (main env).final.exitCode = none) ∨
    ((env.dotenvErr ≠ none ∨ env.connectErr ≠ none ∨ env.pingErr ≠ none ∨ env.listenErr ≠ none) ∧
      (main env).final.isServing = false ∧ (main env).final.exitCode = some 1) := by
  unfold main
  cases h1 : env.dotenvErr <;> cases h2 : env.connectErr <;> cases h3 : env.pingErr <;>
    cases h4 : env.listenErr <;> simp [fatal, Final.isServing, Final.exitCode]

/-! ## The claims -/

/-- C1 (amended): for every state of the players collection in which every document stores
its score as an integer under `Lcoins` (and holds the same integer under every other element
that is decoded into the score), whose server answers the find command as MongoDB specifies
(the documents sorted by the sort document, cut at the limit), and for which the query and
the decoding succeed, the sequence `top10` writes under `result` is ranked by score. The body
is the array of the players `ps`, each written with its `uuid` and its `lcoins`; the `lcoins`
values are the stored scores of the first ten documents in sorted order; they are
non-increasing; and every document of the collection that is not returned has a score no
greater than that of every returned player. -/
theorem top10_ranked_by_stored_score (players : Collection) (score : Document → Int)
    (sorted : List Document) (cursor : Cursor) (results : Slice Player)
    (hs : ∀ d ∈ players.docs, StoresScore d (score d))
    (hserver : Answers players.server players.docs [] top10FindOptions sorted)
    (hf : players.Find [] top10FindOptions = Except.ok cursor)
    (ha : cursor.All Slice.nil = Except.ok results) :
    ∃ ps : List Player,
      (top10 newResponseWriter players).w.body =
        "\x7b\"result\":" ++
          (if ps = [] then "null"
            else "[" ++ ",".intercalate (ps.map (fun p =>
              "\x7b\"uuid\":" ++ jsonString p.Uuid ++ ",\"lcoins\":" ++ toString p.Lcoins ++
                "\x7d")) ++ "]") ++ "\x7d\n" ∧
      ps.map Player.Lcoins = (sorted.take 10).map score ∧
      (ps.map Player.Lcoins).Sorted (· ≥ ·) ∧
      (sorted.take 10 ++ sorted.drop 10).Perm players.docs ∧
      ∀ p ∈ ps, ∀ d ∈ sorted.drop 10, score d ≤ p.Lcoins := by
  obtain ⟨hperm, hsorted, hdocs, _⟩ := answers_top10 hserver hf
  obtain ⟨ps, hdec, _, hres⟩ := all_ok ha
  have hall : ∀ d ∈ sorted, StoresScore d (score d) := fun d hd => hs d (hperm.subset hd)
  have hpair := sorted_by_score score hall hsorted
  have hmap : ps.map Player.Lcoins = (sorted.take 10).map score := by
    rw [← hdocs]
    apply decoded_scores _ (decodeAll_ok hdec)
    intro d hd
    rw [hdocs] at hd
    exact hall d (List.mem_of_mem_take hd)
  refine ⟨ps, ?_, hmap, ?_, ?_, ?_⟩
  · rw [top10_ok newResponseWriter hf ha, (encodeTo_fresh_json _).2.1, hres]
    exact jsonResult_eq ps
  · rw [hmap]
    exact List.pairwise_map.mpr (List.Pairwise.take hpair)
  · rw [List.take_append_drop]
    exact hperm
  · intro p hp d hd
    have hp1 : p.Lcoins ∈ (sorted.take 10).map score := by
      rw [← hmap]
      exact List.mem_map_of_mem _ hp
    obtain ⟨x, hx, hxp⟩ := List.mem_map.mp hp1
    rw [← hxp]
    exact hpair.rel_of_mem_take_of_mem_drop hx hd

/-- Witness of C1 (amended): the seeded collection on `mongod`. The hypotheses hold, and the
scores written are 50, 20, 5. -/
theorem top10_ranked_by_stored_score_witness :
    (∀ d ∈ seedPlayers.docs, StoresScore d (storedScore d)) ∧
      Answers seedPlayers.server seedPlayers.docs [] top10FindOptions seedSorted ∧
      ∃ ps : List Player,
        (top10 newResponseWriter seedPlayers).w.body =
          "\x7b\"result\":" ++
            (if ps = [] then "null"
              else "[" ++ ",".intercalate (ps.map (fun p =>
                "\x7b\"uuid\":" ++ jsonString p.Uuid ++ ",\"lcoins\":" ++ toString p.Lcoins ++
                  "\x7d")) ++ "]") ++ "\x7d\n" ∧
        ps.map Player.Lcoins = [50, 20, 5] :=
  ⟨by decide, ⟨by decide, by decide, rfl⟩,
    (top10_ranked_by_stored_score seedPlayers storedScore seedSorted _
      (Slice.mk [⟨"b", 50⟩, ⟨"c", 20⟩, ⟨"a", 5⟩]) (by decide) ⟨by decide, by decide, rfl⟩
      rfl rfl).imp (fun _ h => ⟨h.1, h.2.1⟩)⟩

/-- C1 as stated fails, in two ways. On a collection with one player stored under `Lcoins`
(5 coins) and one stored under `lcoins` (50 coins), answered by a server that sorts as asked,
the query and the decoding succeed and `top10` writes the player with 5 coins before the
player with 50 coins. And on the seeded collection, every score stored under `Lcoins`,
answered by a server that does not apply the sort document, `top10` writes the players in the
order the cursor delivers them: 5, 50, 20. -/
theorem top10_unranked_mixed_case :
    Answers mixedCasePlayers.server mixedCasePlayers.docs [] top10FindOptions
        mixedCasePlayers.docs ∧
      (top10 newResponseWriter mixedCasePlayers).w.status = 200 ∧
      (top10 newResponseWriter mixedCasePlayers).w.body =
        "\x7b\"result\":[\x7b\"uuid\":\"a\",\"lcoins\":5\x7d,\x7b\"uuid\":\"b\",\"lcoins\":50\x7d]\x7d\n" ∧
      ¬ ([5, 50] : List Int).Sorted (· ≥ ·) ∧
      (∀ d ∈ seedPlayers.docs, StoresScore d (storedScore d)) ∧
      (top10 newResponseWriter { docs := seedPlayers.docs, server := scanServer }).w.body =
        "\x7b\"result\":[\x7b\"uuid\":\"a\",\"lcoins\":5\x7d,\x7b\"uuid\":\"b\",\"lcoins\":50\x7d,\x7b\"uuid\":\"c\",\"lcoins\":20\x7d]\x7d\n" ∧
      ¬ ([5, 50, 20] : List Int).Sorted (· ≥ ·) := by
  refine ⟨⟨by decide, by decide, rfl⟩, by decide, by decide, by decide, by decide, by decide,
    by decide⟩

/-- C3: the code departs from the claim. On the empty players collection, reachable and
healthy, `top10` answers with status 200, and the body it writes is `{"result":null}` followed
by a line feed: `null`, not the empty array the claim asks for. -/
theorem top10_empty_collection_writes_null :
    emptyPlayers.docs = [] ∧
      (top10 newResponseWriter emptyPlayers).w.status = 200 ∧
      (top10 newResponseWriter emptyPlayers).w.body = "\x7b\"result\":null\x7d\n" ∧
      (top10 newResponseWriter emptyPlayers).w.body ≠ "\x7b\"result\":[]\x7d" ∧
      (top10 newResponseWriter emptyPlayers).w.body ≠ "\x7b\"result\":[]\x7d\n" := by
  decide

/-- C4 (amended): for every error returned by the find command, `top10` answers with status
500, the plain-text content type and a body that is exactly `Error fetching top players`
followed by a line feed (so no part of a JSON result), logs the error, and returns normally. -/
theorem top10_find_error (players : Collection) (err : String)
    (h : players.Find [] top10FindOptions = Except.error err) :
    (top10 newResponseWriter players).w.status = 500 ∧
      (top10 newResponseWriter players).w.body = "Error fetching top players\n" ∧
      Header.get (top10 newResponseWriter players).w.sentHeader "Content-Type" =
        some "text/plain; charset=utf-8" ∧
      (top10 newResponseWriter players).log = ["Error fetching top players: " ++ err] ∧
      (top10 newResponseWriter players).control = Control.returned := by
  simp only [top10, h]
  refine ⟨?_, ?_, ?_, ?_, ?_⟩ <;> first | rfl | trivial

/-- Witness of C4 (amended) on an unreachable server. -/
theorem top10_find_error_witness :
    unreachablePlayers.Find [] top10FindOptions =
        Except.error "server selection error: context deadline exceeded" ∧
      (top10 newResponseWriter unreachablePlayers).w.status = 500 ∧
      (top10 newResponseWriter unreachablePlayers).w.body = "Error fetching top players\n" :=
  ⟨rfl, (top10_find_error unreachablePlayers _ rfl).1,
    (top10_find_error unreachablePlayers _ rfl).2.1⟩

/-- C4 as stated fails: on an unreachable server the body of the status-500 response is not
exactly the string `Error fetching top players`. -/
theorem top10_find_error_body_has_line_feed :
    (top10 newResponseWriter unreachablePlayers).w.status = 500 ∧
      (top10 newResponseWriter unreachablePlayers).w.body ≠ "Error fetching top players" := by
  decide

/-- C6: on both failure paths of `top10` the response carries no detail of the error. For any
two errors of the find command the response writers (status, headers, body) are equal, and for
any two errors of `Cursor.All` they are equal, with status 500 and the fixed message
`Error processing players` as the printed line; the error itself is in the log line. -/
theorem top10_error_detail_not_sent (p1 p2 : Collection) :
    (∀ e1 e2 : String,
      p1.Find [] top10FindOptions = Except.error e1 →
      p2.Find [] top10FindOptions = Except.error e2 →
        (top10 newResponseWriter p1).w = (top10 newResponseWriter p2).w ∧
        (top10 newResponseWriter p1).log = ["Error fetching top players: " ++ e1]) ∧
    (∀ (c1 c2 : Cursor) (e1 e2 : String),
      p1.Find [] top10FindOptions = Except.ok c1 → c1.All Slice.nil = Except.error e1 →
      p2.Find [] top10FindOptions = Except.ok c2 → c2.All Slice.nil = Except.error e2 →
        (top10 newResponseWriter p1).w = (top10 newResponseWriter p2).w ∧
        (top10 newResponseWriter p1).w.status = 500 ∧
        (top10 newResponseWriter p1).w.body = "Error processing players\n" ∧
        (top10 newResponseWriter p1).log = ["Error processing players: " ++ e1]) := by
  constructor
  · intro e1 e2 h1 h2
    simp only [top10, h1, h2]
    refine ⟨?_, ?_⟩ <;> first | rfl | trivial
  · intro c1 c2 e1 e2 h1 h1a h2 h2a
    simp only [top10, h1, h1a, h2, h2a]
    refine ⟨?_, ?_, ?_, ?_⟩ <;> first | rfl | trivial

/-- Witness of C6: two different find errors, and a decoding error against a cursor error. -/
theorem top10_error_detail_not_sent_witness :
    (top10 newResponseWriter unreachablePlayers).w =
        (top10 newResponseWriter { docs := seedPlayers.docs, findErr := some "EOF" }).w ∧
      (top10 newResponseWriter undecodablePlayers).w =
        (top10 newResponseWriter brokenCursorPlayers).w ∧
      (top10 newResponseWriter undecodablePlayers).log =
        ["Error processing players: error decoding key lcoins: cannot decode string into an integer type"] :=
  ⟨((top10_error_detail_not_sent unreachablePlayers
      { docs := seedPlayers.docs, findErr := some "EOF" }).1 _ _ rfl rfl).1,
    ((top10_error_detail_not_sent undecodablePlayers brokenCursorPlayers).2
      _ _ _ _ rfl rfl rfl rfl).1,
    ((top10_error_detail_not_sent undecodablePlayers brokenCursorPlayers).2
      _ _ _ _ rfl rfl rfl rfl).2.2.2⟩

/-- C7 (amended): for the players collection seeded with `a` (5), `b` (50) and `c` (20), the
scores stored under `Lcoins`, `top10` answers with status 200 and the body
`{"result":[{"uuid":"b","lcoins":50},{"uuid":"c","lcoins":20},{"uuid":"a","lcoins":5}]}`
followed by a line feed: each record is an object with the key `uuid` and then the key
`lcoins`, in rank order. -/
theorem top10_seed_scenario :
    (top10 newResponseWriter seedPlayers).w.status = 200 ∧
      (top10 newResponseWriter seedPlayers).w.body =
        "\x7b\"result\":[\x7b\"uuid\":\"b\",\"lcoins\":50\x7d,\x7b\"uuid\":\"c\",\"lcoins\":20\x7d,\x7b\"uuid\":\"a\",\"lcoins\":5\x7d]\x7d\n" := by
  decide

/-- C7 as stated fails: the body written for the seeded collection is not the bare JSON text,
it ends with a line feed. -/
theorem top10_seed_body_has_line_feed :
    (top10 newResponseWriter seedPlayers).w.body ≠
      "\x7b\"result\":[\x7b\"uuid\":\"b\",\"lcoins\":50\x7d,\x7b\"uuid\":\"c\",\"lcoins\":20\x7d,\x7b\"uuid\":\"a\",\"lcoins\":5\x7d]\x7d" := by
  decide

/-- C9: start-up is all-or-nothing. The process serves exactly when loading the
configuration, constructing the client, the ping and binding the listener all succeed. When
the first three succeed, the calls are made in the order load, connect, ping, bind the
collection, register `/`, register `/list-top/10`, listen. When one of the three fails the
process exits with code 1 after a fatal log line, and no route was registered and no listener
started. -/
theorem startup_all_or_nothing (env : Env) :
    ((main env).final.isServing = true ↔
      (env.dotenvErr = none ∧ env.connectErr = none ∧ env.pingErr = none ∧
        env.listenErr = none)) ∧
    (env.dotenvErr = none → env.connectErr = none → env.pingErr = none →
      ∃ rest, (main env).trace =
        [Step.godotenvLoad, Step.mongoConnect env.MONGO_URI, Step.clientPing,
          Step.collection { database := env.DB, name := "players" },
          Step.logPrint "MongoDB Connected",
          Step.handleFunc "/", Step.handleFunc "/list-top/10",
          Step.logPrint ("Starting server on port " ++ env.PORT),
          Step.listenAndServe (":" ++ env.PORT)] ++ rest) ∧
    ((env.dotenvErr ≠ none ∨ env.connectErr ≠ none ∨ env.pingErr ≠ none) →
      (main env).final.isServing = false ∧ (main env).final.exitCode = some 1 ∧
      (∃ msg, (main env).trace.getLast? = some (Step.logFatal msg)) ∧
      ∀ s ∈ (main env).trace,
        (∀ pattern, s ≠ Step.handleFunc pattern) ∧ (∀ a, s ≠ Step.listenAndServe a)) := by
  refine ⟨?_, ?_, ?_⟩
  · rcases main_cases env with ⟨h1, h2, h3, h4, h5, _⟩ | ⟨h1, h2, _⟩
    · simp [h1, h2, h3, h4, h5]
    · constructor
      · intro h
        rw [h2] at h
        exact absurd h (by decide)
      · rintro ⟨a, b, c, d⟩
        rcases h1 with h | h | h | h
        · exact absurd a h
        · exact absurd b h
        · exact absurd c h
        · exact absurd d h
  · intro h1 h2 h3
    unfold main
    cases h4 : env.listenErr <;> simp [h1, h2, h3, fatal]
  · intro h
    unfold main
    cases h1 : env.dotenvErr with
    | some e => simp [fatal, Final.isServing, Final.exitCode]
    | none =>
      cases h2 : env.connectErr with
      | some e => simp [fatal, Final.isServing, Final.exitCode]
      | none =>
        cases h3 : env.pingErr with
        | some e => simp [fatal, Final.isServing, Final.exitCode]
        | none => simp [h1, h2, h3] at h

/-- Witness of C9: a failing ping, and a start-up without failure. -/
theorem startup_all_or_nothing_witness :
    (main { pingErr := some "server selection timeout" }).final.isServing = false ∧
      (main { pingErr := some "server selection timeout" }).final.exitCode = some 1 ∧
      (main { pingErr := some "server selection timeout" }).trace =
        [Step.godotenvLoad, Step.mongoConnect "", Step.clientPing,
          Step.logFatal "Could not ping MongoDB: server selection timeout"] ∧
      (main { PORT := "8080", DB := "legiticoin" }).final.isServing = true :=
  ⟨((startup_all_or_nothing { pingErr := some "server selection timeout" }).2.2
      (Or.inr (Or.inr (by decide)))).1,
    ((startup_all_or_nothing { pingErr := some "server selection timeout" }).2.2
      (Or.inr (Or.inr (by decide)))).2.1,
    by decide,
    (startup_all_or_nothing { PORT := "8080", DB := "legiticoin" }).1.mpr
      ⟨rfl, rfl, rfl, rfl⟩⟩

end LegitiCoinDB
